import Mathlib

/-!
# Verification of the ScreenWrite screenplay editor core

Shallow embedding of the two algorithmic subsystems of the repository:
the block transition / auto-formatting engine of
`src/components/ScreenplayEditor.tsx` and the pagination / layout engine of
`src/App.tsx`, together with proofs of the frozen behavioural claims.

Block text is modelled as `List Char` (one code point per list entry, the
same granularity at which the JavaScript string operations of the source
act for the inputs considered here).  Fallible operations return `Option`.
-/

namespace ScreenWrite

/-- The closed enumeration of screenplay block kinds
(`CustomElement.type` in `ScreenplayEditor.tsx`). -/
inductive BlockType where
  | paragraph
  | sceneHeading
  | action
  | character
  | dialogue
  | parenthetical
  | transition
  deriving DecidableEq, Repr, BEq

/-- A structural block: a type together with its single plain-text run
(`CustomElement` with one `CustomText` child). -/
structure Block where
  type : BlockType
  text : List Char
  deriving DecidableEq, Repr

/-- The character class matched by the JavaScript regular-expression
escape `\s` (and stripped by `String.prototype.trim`). -/
def isJsWhitespace (c : Char) : Bool :=
  c == ' ' || c == '\t' || c == '\n' || c == '\r' ||
  c == '\x0b' || c == '\x0c' || c == '\u00a0' || c == '\u1680' ||
  c == '\u2000' || c == '\u2001' || c == '\u2002' || c == '\u2003' ||
  c == '\u2004' || c == '\u2005' || c == '\u2006' || c == '\u2007' ||
  c == '\u2008' || c == '\u2009' || c == '\u200a' || c == '\u2028' ||
  c == '\u2029' || c == '\u202f' || c == '\u205f' || c == '\u3000' ||
  c == '\ufeff'

/-- Case-insensitive literal matching at the head of a string, as done by a
JavaScript regex literal run under the `i` flag (ASCII folding only, which
is what the flag does for ASCII pattern characters without the `u` flag).
The pattern `pat` is given in lower case; on success the unconsumed
remainder of the subject is returned. -/
def matchCaseFold : List Char → List Char → Option (List Char)
  | [], s => some s
  | _ :: _, [] => none
  | p :: ps, c :: cs => if c.toLower = p then matchCaseFold ps cs else none

/-- The test of the regex `/^INT\.?\s/i` from `autoFormatPatterns`. -/
def testINT (s : List Char) : Bool :=
  match matchCaseFold ['i', 'n', 't'] s with
  | none => false
  | some ('.' :: c :: _) => isJsWhitespace c
  | some (c :: _) => isJsWhitespace c
  | some [] => false

/-- The test of the regex `/^EXT\.?\s/i` from `autoFormatPatterns`. -/
def testEXT (s : List Char) : Bool :=
  match matchCaseFold ['e', 'x', 't'] s with
  | none => false
  | some ('.' :: c :: _) => isJsWhitespace c
  | some (c :: _) => isJsWhitespace c
  | some [] => false

/-- The test of the regex `/^FADE\s/i` from `autoFormatPatterns`. -/
def testFADE (s : List Char) : Bool :=
  match matchCaseFold ['f', 'a', 'd', 'e'] s with
  | none => false
  | some (c :: _) => isJsWhitespace c
  | some [] => false

/-- The test of the regex `/^CUT\s/i` from `autoFormatPatterns`. -/
def testCUT (s : List Char) : Bool :=
  match matchCaseFold ['c', 'u', 't'] s with
  | none => false
  | some (c :: _) => isJsWhitespace c
  | some [] => false

/-- The test of the regex `/^DISSOLVE\s/i` from `autoFormatPatterns`. -/
def testDISSOLVE (s : List Char) : Bool :=
  match matchCaseFold ['d', 'i', 's', 's', 'o', 'l', 'v', 'e'] s with
  | none => false
  | some (c :: _) => isJsWhitespace c
  | some [] => false

/-- One entry of the `autoFormatPatterns` array. -/
structure AutoFormatRule where
  pattern : List Char → Bool
  targetType : BlockType

/-- The ordered `autoFormatPatterns` array of `ScreenplayEditor.tsx`. -/
def autoFormatPatterns : List AutoFormatRule :=
  [⟨testINT, .sceneHeading⟩,
   ⟨testEXT, .sceneHeading⟩,
   ⟨testFADE, .transition⟩,
   ⟨testCUT, .transition⟩,
   ⟨testDISSOLVE, .transition⟩]

/-- The `for … of autoFormatPatterns` loop inside the overridden
`editor.insertText`: for each rule whose pattern matches, if the current
element type differs from the rule's target the type is set and the loop
`break`s; otherwise the loop continues with the next rule.  Returns the
type written by `Transforms.setNodes`, if any. -/
def autoFormatFire : List AutoFormatRule → List Char → BlockType → Option BlockType
  | [], _, _ => none
  | r :: rest, text, cur =>
    if r.pattern text then
      if cur ≠ r.targetType then some r.targetType
      else autoFormatFire rest text cur
    else autoFormatFire rest text cur

/-- The block type resulting from running the auto-format loop of the
source on the given block text and current type. -/
def autoFormatResult (text : List Char) (cur : BlockType) : BlockType :=
  (autoFormatFire autoFormatPatterns text cur).getD cur

/-- Modelled from the spec: the first-match-wins semantics the spec words
ascribe to the rule list — the first rule (in catalog order) whose pattern
matches decides the outcome and no lower-priority rule is consulted. -/
def specFirstMatchType (text : List Char) (cur : BlockType) : BlockType :=
  match autoFormatPatterns.find? (fun r => r.pattern text) with
  | some r => r.targetType
  | none => cur

/-! ## Editor state and text-buffer primitives

The Slate editor object is the spec's external Text Buffer Primitives
collaborator.  The state below records exactly what the core consults:
the block sequence, which block holds the cursor, the cursor offset inside
that block's text, whether the selection is collapsed, and the command
palette state (`showCommandPalette` / `selectedIndex` in the source). -/

/-- The editor state visible to the core. -/
structure EditorState where
  blocks : List Block
  cursorBlock : Nat
  cursorOffset : Nat
  selectionCollapsed : Bool
  paletteOpen : Bool
  selectedIndex : Nat
  deriving DecidableEq, Repr

/-- The keys handled by the controllers. `char c` is an ordinary printable
key producing the single character `c`. -/
inductive Key where
  | char (c : Char)
  | enter
  | tab
  | escape
  | arrowUp
  | arrowDown
  deriving DecidableEq, Repr

/-- Modelled from the spec: the buffer primitive `insertText` — insert the
given characters into the text of the block containing the collapsed
cursor, at the cursor offset, advancing the cursor past them
(`Transforms.insertText` of the external buffer layer). -/
def bufferInsertText (st : EditorState) (s : List Char) : EditorState :=
  match st.blocks.get? st.cursorBlock with
  | some b =>
    { st with
        blocks := st.blocks.set st.cursorBlock
          { b with text := b.text.take st.cursorOffset ++ s ++ b.text.drop st.cursorOffset },
        cursorOffset := st.cursorOffset + s.length }
  | none => st

/-- The auto-format tail of the overridden `editor.insertText` installed
by `withAutoFormatting`: read the block at the (collapsed) cursor, run the
pattern loop over its text, and retype it if a rule fires. -/
def autoFormatStep (st : EditorState) : EditorState :=
  match st.blocks.get? st.cursorBlock with
  | some b =>
    match autoFormatFire autoFormatPatterns b.text b.type with
    | some ty => { st with blocks := st.blocks.set st.cursorBlock { b with type := ty } }
    | none => st
  | none => st

/-- The guard of the overridden `editor.insertText`: the auto-format step
runs only for an actual single-character text insertion with a collapsed
selection. -/
def insertTextWithAutoFormat (st : EditorState) (s : List Char) : EditorState :=
  let st2 := bufferInsertText st s
  if s ≠ [] ∧ s.length = 1 ∧ s ≠ ['\n'] ∧ s ≠ ['\t'] ∧ st2.selectionCollapsed = true then
    autoFormatStep st2
  else st2

/-- The custom `editor.insertData` paste handler: a non-empty plain-text
payload is inserted in one call to `Transforms.insertText`, bypassing the
per-character `editor.insertText` override (and with it the auto-format
loop); an empty payload falls through to the external default handler,
modelled as a no-op on the block sequence. -/
def editorInsertData (st : EditorState) (s : List Char) : EditorState :=
  if s ≠ [] then bufferInsertText st s else st

/-- Modelled from the spec: the buffer primitive `deleteBackward(1)`
(`Transforms.delete` with `distance 1, reverse`) — remove the character
before the collapsed cursor; at a block start, merge the block into its
predecessor. -/
def deleteBackwardOne (st : EditorState) : EditorState :=
  match st.blocks.get? st.cursorBlock with
  | none => st
  | some b =>
    if st.cursorOffset > 0 then
      { st with
          blocks := st.blocks.set st.cursorBlock
            { b with text := b.text.take (st.cursorOffset - 1) ++ b.text.drop st.cursorOffset },
          cursorOffset := st.cursorOffset - 1 }
    else if st.cursorBlock > 0 then
      match st.blocks.get? (st.cursorBlock - 1) with
      | some p =>
        { st with
            blocks := st.blocks.take (st.cursorBlock - 1) ++
              [{ p with text := p.text ++ b.text }] ++ st.blocks.drop (st.cursorBlock + 1),
            cursorBlock := st.cursorBlock - 1,
            cursorOffset := p.text.length }
      | none => st
    else st

/-- Modelled from the spec: the buffer primitive `insertBlockAfterCursor`
(`Transforms.insertNodes` with a single empty element) — insert one new
empty block of the given type immediately after the block containing the
cursor and move the cursor into it. -/
def insertBlockAfterCursor (st : EditorState) (ty : BlockType) : EditorState :=
  { st with
      blocks := st.blocks.take (st.cursorBlock + 1) ++
        Block.mk ty [] :: st.blocks.drop (st.cursorBlock + 1),
      cursorBlock := st.cursorBlock + 1,
      cursorOffset := 0,
      selectionCollapsed := true }

/-- Modelled from the spec: the buffer primitive `moveCursor`
(`Transforms.move`) — advance the collapsed cursor one position, stepping
into the next block when at the end of the current one. -/
def moveCursorForward (st : EditorState) : EditorState :=
  match st.blocks.get? st.cursorBlock with
  | some b =>
    if st.cursorOffset < b.text.length then
      { st with cursorOffset := st.cursorOffset + 1 }
    else if st.cursorBlock + 1 < st.blocks.length then
      { st with cursorBlock := st.cursorBlock + 1, cursorOffset := 0 }
    else st
  | none => st

/-- Modelled from the spec: the buffer's default Enter behaviour
(Slate `insertBreak`) — split the block containing the cursor at the
cursor offset into two blocks of the same type. -/
def insertBreak (st : EditorState) : EditorState :=
  match st.blocks.get? st.cursorBlock with
  | some b =>
    { st with
        blocks := st.blocks.take st.cursorBlock ++
          { b with text := b.text.take st.cursorOffset } ::
          { b with text := b.text.drop st.cursorOffset } ::
          st.blocks.drop (st.cursorBlock + 1),
        cursorBlock := st.cursorBlock + 1,
        cursorOffset := 0 }
  | none => st

/-! ## Command palette catalog and controllers -/

/-- One entry of the palette's `commands` array. -/
structure Command where
  id : String
  label : String
  shortcut : String
  deriving DecidableEq, Repr

/-- The fixed ordered `commands` catalog of the `CommandPalette`
component (icons omitted — they are purely decorative strings). -/
def commands : List Command :=
  [⟨"scene", "Scene Heading", "/scene"⟩,
   ⟨"action", "Action", "/action"⟩,
   ⟨"character", "Character", "/character"⟩,
   ⟨"dialogue", "Dialogue", "/dialogue"⟩,
   ⟨"parenthetical", "Parenthetical", "/parens"⟩,
   ⟨"transition", "Transition", "/transition"⟩,
   ⟨"shot", "Shot", "/shot"⟩,
   ⟨"text", "Text", "/text"⟩,
   ⟨"note", "Note", "/note"⟩,
   ⟨"outline", "Outline", "/outline"⟩,
   ⟨"newact", "New Act", "/newact"⟩,
   ⟨"endact", "End Act", "/endact"⟩,
   ⟨"lyrics", "Lyrics", "/lyrics"⟩,
   ⟨"image", "Image", "/image"⟩,
   ⟨"sequence", "Sequence", "/sequence"⟩,
   ⟨"dual", "Dual Dialogue", "/dual"⟩]

/-- The `elementMap` of `handleCommandSelect`, with its `|| 'action'`
fallback for unknown ids. -/
def elementMap (command : String) : BlockType :=
  if command = "scene" then .sceneHeading
  else if command = "action" then .action
  else if command = "character" then .character
  else if command = "dialogue" then .dialogue
  else if command = "parenthetical" then .parenthetical
  else if command = "transition" then .transition
  else if command = "shot" then .action
  else if command = "text" then .action
  else if command = "note" then .action
  else if command = "outline" then .action
  else if command = "newact" then .action
  else if command = "endact" then .action
  else if command = "lyrics" then .action
  else if command = "image" then .action
  else if command = "sequence" then .action
  else if command = "dual" then .dialogue
  else .action

/-- The source's `handleCommandSelect`: delete the one character before the cursor
(the triggering slash), insert a new empty block of the mapped type,
`Transforms.move`, and close the palette (whose `selectedIndex` resets to
0 through the close effect). -/
def handleCommandSelect (st : EditorState) (command : String) : EditorState :=
  let st1 := deleteBackwardOne st
  let st2 := insertBlockAfterCursor st1 (elementMap command)
  let st3 := moveCursorForward st2
  { st3 with paletteOpen := false, selectedIndex := 0 }

/-- The source's `handleCommandClose`: close the palette and, when it was open, delete
the one character before the cursor (the triggering slash). -/
def handleCommandClose (st : EditorState) : EditorState :=
  let st1 := if st.paletteOpen then deleteBackwardOne st else st
  { st1 with paletteOpen := false, selectedIndex := 0 }

/-- The `ArrowDown` selection update of the palette's key handler:
`(prev + 1) % commands.length`. -/
def moveSelectionDown (i : Nat) : Nat := (i + 1) % commands.length

/-- The `ArrowUp` selection update of the palette's key handler:
`(prev - 1 + commands.length) % commands.length` (the source computes in
JavaScript numbers; for `prev ≥ 0` this equals the expression below). -/
def moveSelectionUp (i : Nat) : Nat := (i + commands.length - 1) % commands.length

/-- The palette's document-level `keydown` listener.  `isOpen` is the
open flag captured by the listener's closure when it was installed (the
pre-event value).  Returns the updated state and whether the event's
default was prevented; `none` models the exception thrown when
`commands[selectedIndex]` is out of range. -/
def paletteKeyDown (isOpen : Bool) (st : EditorState) (k : Key) :
    Option (EditorState × Bool) :=
  if isOpen = false then some (st, false) else
  match k with
  | .arrowDown => some ({ st with selectedIndex := moveSelectionDown st.selectedIndex }, true)
  | .arrowUp => some ({ st with selectedIndex := moveSelectionUp st.selectedIndex }, true)
  | .enter =>
    match commands.get? st.selectedIndex with
    | some c => some (handleCommandSelect st c.id, true)
    | none => none
  | .escape => some (handleCommandClose st, true)
  | _ => some (st, false)

/-- The editor's `handleKeyDown` (the `onKeyDown` of the `Editable`).
Returns the updated state and whether `event.preventDefault()` ran.
While the palette is open it returns immediately; `/` opens the palette
without preventing the default; Enter acts only on a collapsed selection
over an existing block; Tab always prevents the default but inserts only
on a collapsed selection; Escape closes the palette flag. -/
def editorKeyDown (st : EditorState) (k : Key) : EditorState × Bool :=
  if st.paletteOpen then (st, false)
  else
    match k with
    | .char c =>
      if c = '/' then ({ st with paletteOpen := true }, false) else (st, false)
    | .enter =>
      if st.selectionCollapsed then
        match st.blocks.get? st.cursorBlock with
        | some b =>
          let ty : BlockType :=
            if b.type = .character then .dialogue
            else if b.type = .sceneHeading then .action
            else .action
          (insertBlockAfterCursor st ty, true)
        | none => (st, false)
      else (st, false)
    | .tab =>
      if st.selectionCollapsed then (insertBlockAfterCursor st .character, true)
      else (st, true)
    | .escape => ({ st with paletteOpen := false, selectedIndex := 0 }, false)
    | _ => (st, false)

/-- Modelled from the spec: the buffer's default handling of a key whose
`keydown` default was not prevented — a character key is inserted through
the (auto-formatting) `editor.insertText`, Enter runs the default block
split, and Tab/Escape/arrow keys do not mutate the block sequence. -/
def defaultKeyBehavior (st : EditorState) (k : Key) : EditorState :=
  match k with
  | .char c => insertTextWithAutoFormat st [c]
  | .enter => insertBreak st
  | _ => st

/-- One key event processed end to end: the editor's handler runs first
(React delegates at the root container), then the palette's document
listener (with the open flag it captured before the event), and the
buffer's default behaviour runs iff neither prevented the default. -/
def dispatchKey (st : EditorState) (k : Key) : Option EditorState :=
  let r1 := editorKeyDown st k
  match paletteKeyDown st.paletteOpen r1.1 k with
  | none => none
  | some (st2, p2) =>
    if r1.2 || p2 then some st2 else some (defaultKeyBehavior st2 k)

/-! ## Pagination and PDF layout (`handleExportPDF` / `formatContentForPDF`)

Coordinates are modelled as integers: every coordinate the source computes
and every comparison it makes on the inputs considered here is over exact
small integers, on which JavaScript float arithmetic is exact.  The
external `widthOfTextAtSize` measurement of `pdf-lib` is a parameter
(an integer width; the halving of the centred positions is integer
division, exact whenever the measured width has the parity of the page
width — no claim inspects a centred position's value). -/

/-- A flattened line of body content (one element of the
`formattedContent` array built by `formatContentForPDF`). -/
structure PageLine where
  text : List Char
  type : BlockType
  bold : Bool
  size : Nat
  deriving DecidableEq, Repr

/-- One `drawText` call recorded with its position, font size and font
weight (the source always draws in the Courier family, bold or regular). -/
structure DrawInstr where
  text : List Char
  x : Int
  y : Int
  size : Nat
  bold : Bool
  deriving DecidableEq, Repr

/-- The title-page record of `App.tsx`. -/
structure TitlePage where
  title : List Char
  author : List Char
  contact : List Char
  basedOn : List Char
  deriving DecidableEq, Repr

/-- Export configuration: the `showTitlePage` flag and the title-page
fields, as read by `handleExportPDF`. -/
structure ExportConfig where
  showTitlePage : Bool
  titlePage : TitlePage
  deriving DecidableEq, Repr

/-- JavaScript `String.prototype.toUpperCase` restricted to ASCII (the only case the
claims evaluate). -/
def upperList (s : List Char) : List Char := s.map Char.toUpper

/-- JavaScript `text.split('\n')` on a character list: always at least one piece,
with empty pieces preserved. -/
def splitOnNewline : List Char → List (List Char)
  | [] => [[]]
  | c :: cs =>
    if c = '\n' then [] :: splitOnNewline cs
    else
      match splitOnNewline cs with
      | [] => [[c]]
      | l :: ls => (c :: l) :: ls

/-- The `if (line.trim())` truthiness test of `formatContentForPDF`:
a line survives iff it has a non-whitespace character. -/
def lineKeep (l : List Char) : Bool := l.any (fun c => !isJsWhitespace c)

/-- The projection of one block to its `PageLine`s in
`formatContentForPDF`: split the text on newlines, drop whitespace-only
lines, inherit the block's type, set bold for character, scene-heading
and transition lines, size 12 uniformly. -/
def pageLinesOfBlock (b : Block) : List PageLine :=
  (splitOnNewline b.text).filterMap fun l =>
    if lineKeep l then
      some ⟨l, b.type,
        b.type == .character || b.type == .sceneHeading || b.type == .transition, 12⟩
    else none

/-- The source's `formatContentForPDF`: flatten the document's blocks to the ordered
list of drawable lines. -/
def formatContentForPDF (blocks : List Block) : List PageLine :=
  (blocks.map pageLinesOfBlock).flatten

/-- Page width in units (612 = 8.5 inches at 72 DPI). -/
def pageWidth : Int := 612
/-- Page height in units (792 = 11 inches at 72 DPI). -/
def pageHeight : Int := 792
/-- The uniform one-inch margin of the export. -/
def margin : Int := 72
/-- The fixed line height of the content pass. -/
def lineHeight : Int := 14

/-- The source's `line.size || 12` (a `0` stored size is falsy in JavaScript). -/
def effectiveSize (l : PageLine) : Nat := if l.size = 0 then 12 else l.size

/-- The per-type horizontal position of a content line, exactly as in the
`xPosition` conditional chain of `handleExportPDF` (widths are measured
on the upper-cased text for the centred and right-aligned cases). -/
def xPos (w : List Char → Nat → Int) (l : PageLine) : Int :=
  if l.type == .sceneHeading then
    (pageWidth - w (upperList l.text) (effectiveSize l)) / 2
  else if l.type == .character then margin + 144
  else if l.type == .dialogue then margin + 108
  else if l.type == .parenthetical then margin + 144
  else if l.type == .transition then
    pageWidth - margin - w (upperList l.text) (effectiveSize l)
  else margin + 108

/-- The draw instruction for one content line at vertical cursor `y`. -/
def lineInstr (w : List Char → Nat → Int) (l : PageLine) (y : Int) : DrawInstr :=
  ⟨l.text, xPos w l, y, effectiveSize l, l.bold⟩

/-- The content loop of `handleExportPDF`: walk the lines with a vertical
cursor; when drawing the next line would cross the bottom margin, close
the current page and start a fresh one with the cursor reset to
`pageHeight - marginTop`. -/
def paginateAux (w : List Char → Nat → Int) :
    List PageLine → Int → List DrawInstr → List (List DrawInstr)
  | [], _, cur => [cur.reverse]
  | l :: ls, y, cur =>
    if y - lineHeight < margin then
      cur.reverse ::
        paginateAux w ls (pageHeight - margin - lineHeight) [lineInstr w l (pageHeight - margin)]
    else
      paginateAux w ls (y - lineHeight) (lineInstr w l y :: cur)

/-- The content pages emitted by `handleExportPDF`: one page is created
unconditionally before the loop, so the result is never empty. -/
def contentPages (w : List Char → Nat → Int) (lines : List PageLine) :
    List (List DrawInstr) :=
  paginateAux w lines (pageHeight - margin) []

/-- The draw instructions of the optional title page, in source order:
upper-cased title centred at `height - 200` size 24 bold, the author line
centred at `height - 300` size 12, the based-on line centred at
`height - 350` size 12, and the contact string at the left margin at the
bottom margin, size 10. -/
def titlePageDraws (w : List Char → Nat → Int) (tp : TitlePage) : List DrawInstr :=
  (if tp.title ≠ [] then
    [⟨upperList tp.title, (pageWidth - w (upperList tp.title) 24) / 2,
      pageHeight - 200, 24, true⟩]
   else []) ++
  (if tp.author ≠ [] then
    [⟨('W' :: 'r' :: 'i' :: 't' :: 't' :: 'e' :: 'n' :: ' ' :: 'b' :: 'y' :: ' ' :: tp.author),
      (pageWidth - w ('W' :: 'r' :: 'i' :: 't' :: 't' :: 'e' :: 'n' :: ' ' :: 'b' :: 'y' :: ' ' :: tp.author) 12) / 2,
      pageHeight - 300, 12, false⟩]
   else []) ++
  (if tp.basedOn ≠ [] then
    [⟨('B' :: 'a' :: 's' :: 'e' :: 'd' :: ' ' :: 'o' :: 'n' :: ' ' :: '"' :: tp.basedOn ++ ['"']),
      (pageWidth - w ('B' :: 'a' :: 's' :: 'e' :: 'd' :: ' ' :: 'o' :: 'n' :: ' ' :: '"' :: tp.basedOn ++ ['"']) 12) / 2,
      pageHeight - 350, 12, false⟩]
   else []) ++
  (if tp.contact ≠ [] then [⟨tp.contact, margin, margin, 10, false⟩] else [])

/-- The source's `handleExportPDF` as a page-building function: the title page iff it
is requested and title or author is non-empty, followed by the content
pages of the flattened document. -/
def exportPDF (w : List Char → Nat → Int) (cfg : ExportConfig) (blocks : List Block) :
    List (List DrawInstr) :=
  (if cfg.showTitlePage = true ∧ (cfg.titlePage.title ≠ [] ∨ cfg.titlePage.author ≠ []) then
    [titlePageDraws w cfg.titlePage]
   else []) ++ contentPages w (formatContentForPDF blocks)

/-! ## Auto-format engine: first-match-wins (C1) -/

theorem matchCaseFold_cons_head {p : Char} {ps s r} (h : matchCaseFold (p :: ps) s = some r) :
    ∃ c cs, s = c :: cs ∧ c.toLower = p := by
  cases s with
  | nil => simp [matchCaseFold] at h
  | cons c cs =>
    refine ⟨c, cs, rfl, ?_⟩
    by_contra hc
    simp [matchCaseFold, hc] at h

theorem testINT_head {s : List Char} (h : testINT s = true) :
    ∃ c cs, s = c :: cs ∧ c.toLower = 'i' := by
  unfold testINT at h
  cases hm : matchCaseFold ['i', 'n', 't'] s with
  | none => rw [hm] at h; simp at h
  | some r => exact matchCaseFold_cons_head hm

theorem testEXT_head {s : List Char} (h : testEXT s = true) :
    ∃ c cs, s = c :: cs ∧ c.toLower = 'e' := by
  unfold testEXT at h
  cases hm : matchCaseFold ['e', 'x', 't'] s with
  | none => rw [hm] at h; simp at h
  | some r => exact matchCaseFold_cons_head hm

theorem testFADE_head {s : List Char} (h : testFADE s = true) :
    ∃ c cs, s = c :: cs ∧ c.toLower = 'f' := by
  unfold testFADE at h
  cases hm : matchCaseFold ['f', 'a', 'd', 'e'] s with
  | none => rw [hm] at h; simp at h
  | some r => exact matchCaseFold_cons_head hm

theorem testCUT_head {s : List Char} (h : testCUT s = true) :
    ∃ c cs, s = c :: cs ∧ c.toLower = 'c' := by
  unfold testCUT at h
  cases hm : matchCaseFold ['c', 'u', 't'] s with
  | none => rw [hm] at h; simp at h
  | some r => exact matchCaseFold_cons_head hm

theorem testDISSOLVE_head {s : List Char} (h : testDISSOLVE s = true) :
    ∃ c cs, s = c :: cs ∧ c.toLower = 'd' := by
  unfold testDISSOLVE at h
  cases hm : matchCaseFold ['d', 'i', 's', 's', 'o', 'l', 'v', 'e'] s with
  | none => rw [hm] at h; simp at h
  | some r => exact matchCaseFold_cons_head hm

/-- Two of the pattern tests cannot match the same text when their pattern
literals start with different (lower-case) letters. -/
theorem false_of_two_heads {s : List Char} {a b : Char} (hab : a ≠ b)
    (h1 : ∃ c cs, s = c :: cs ∧ c.toLower = a)
    (h2 : ∃ c cs, s = c :: cs ∧ c.toLower = b) : False := by
  obtain ⟨c, cs, rfl, hca⟩ := h1
  obtain ⟨c2, cs2, heq, hcb⟩ := h2
  injection heq with e1 e2
  rw [← e1] at hcb
  rw [hca] at hcb
  exact hab hcb

/-- Claim C1: the auto-format engine is first-match-wins over the ordered
pattern catalog — for every block text and current type, its result is
decided by the first rule whose pattern matches the text (reclassifying
to that rule's target when it differs from the current type, and changing
nothing when it coincides), and no lower-priority rule influences the
outcome.  Although the source loop `break`s only when it rewrites the
type, the rules' pattern literals start with pairwise distinct letters,
so the loop's result coincides with the first-match semantics on every
input. -/
theorem c1_auto_format_first_match (text : List Char) (cur : BlockType) :
    autoFormatResult text cur = specFirstMatchType text cur := by
  by_cases h1 : testINT text = true
  · have hF : testFADE text = false := by
      by_contra hx
      rw [Bool.not_eq_false] at hx
      exact false_of_two_heads (by decide) (testINT_head h1) (testFADE_head hx)
    have hC : testCUT text = false := by
      by_contra hx
      rw [Bool.not_eq_false] at hx
      exact false_of_two_heads (by decide) (testINT_head h1) (testCUT_head hx)
    have hD : testDISSOLVE text = false := by
      by_contra hx
      rw [Bool.not_eq_false] at hx
      exact false_of_two_heads (by decide) (testINT_head h1) (testDISSOLVE_head hx)
    by_cases h2 : testEXT text = true <;>
      cases cur <;>
        simp [autoFormatResult, specFirstMatchType, autoFormatPatterns, autoFormatFire,
          List.find?, h1, h2, hF, hC, hD]
  · by_cases h2 : testEXT text = true
    · have hF : testFADE text = false := by
        by_contra hx
        rw [Bool.not_eq_false] at hx
        exact false_of_two_heads (by decide) (testEXT_head h2) (testFADE_head hx)
      have hC : testCUT text = false := by
        by_contra hx
        rw [Bool.not_eq_false] at hx
        exact false_of_two_heads (by decide) (testEXT_head h2) (testCUT_head hx)
      have hD : testDISSOLVE text = false := by
        by_contra hx
        rw [Bool.not_eq_false] at hx
        exact false_of_two_heads (by decide) (testEXT_head h2) (testDISSOLVE_head hx)
      cases cur <;>
        simp [autoFormatResult, specFirstMatchType, autoFormatPatterns, autoFormatFire,
          List.find?, h1, h2, hF, hC, hD]
    · by_cases h3 : testFADE text = true <;>
        by_cases h4 : testCUT text = true <;>
          by_cases h5 : testDISSOLVE text = true <;>
            cases cur <;>
              simp [autoFormatResult, specFirstMatchType, autoFormatPatterns, autoFormatFire,
                List.find?, h1, h2, h3, h4, h5]

/-! ## Pagination claims (C2, C10) -/

/-- Invariant of the content loop: with `j` lines already placed on the
current page (so the cursor sits at `720 - 14 j`), the loop emits
`max 1 ⌈(n + j) / 46⌉` pages for `n` remaining lines. -/
theorem paginateAux_length (w : List Char → Nat → Int) :
    ∀ (L : List PageLine) (j : Nat) (cur : List DrawInstr), j ≤ 46 →
      (paginateAux w L (720 - 14 * (j : Int)) cur).length =
        max 1 ((L.length + j + 45) / 46) := by
  intro L
  induction L with
  | nil =>
    intro j cur hj
    simp only [paginateAux, List.length_cons, List.length_nil, Nat.max_def]
    split <;> omega
  | cons l ls ih =>
    intro j cur hj
    by_cases hj46 : j = 46
    · subst hj46
      rw [paginateAux, if_pos (by norm_num [lineHeight, margin])]
      have hy : (pageHeight - margin - lineHeight : Int) = 720 - 14 * ((1 : Nat) : Int) := by
        norm_num [pageHeight, margin, lineHeight]
      rw [List.length_cons, hy, ih 1 _ (by omega)]
      simp only [Nat.max_def, List.length_cons]
      split <;> split <;> omega
    · rw [paginateAux, if_neg (by simp only [margin, lineHeight]; omega)]
      have hy : (720 - 14 * (j : Int) - lineHeight) = 720 - 14 * ((j + 1 : Nat) : Int) := by
        push_cast [lineHeight]; ring
      rw [hy, ih (j + 1) _ (by omega)]
      simp only [Nat.max_def, List.length_cons]
      split <;> split <;> omega

/-- Invariant of the content loop: no emitted page holds more than 46
lines (the current page already holds `j = cur.length` of them). -/
theorem paginateAux_page_le (w : List Char → Nat → Int) :
    ∀ (L : List PageLine) (j : Nat) (cur : List DrawInstr), j ≤ 46 → cur.length = j →
      ∀ p ∈ paginateAux w L (720 - 14 * (j : Int)) cur, p.length ≤ 46 := by
  intro L
  induction L with
  | nil =>
    intro j cur hj hcur p hp
    simp only [paginateAux, List.mem_singleton] at hp
    subst hp
    simpa [hcur] using hj
  | cons l ls ih =>
    intro j cur hj hcur p hp
    by_cases hj46 : j = 46
    · subst hj46
      rw [paginateAux, if_pos (by norm_num [lineHeight, margin])] at hp
      have hy : (pageHeight - margin - lineHeight : Int) = 720 - 14 * ((1 : Nat) : Int) := by
        norm_num [pageHeight, margin, lineHeight]
      rw [hy] at hp
      rcases List.mem_cons.mp hp with hp | hp
      · subst hp; simp [hcur]
      · exact ih 1 _ (by omega) (by simp) p hp
    · rw [paginateAux, if_neg (by simp only [margin, lineHeight]; omega)] at hp
      have hy : (720 - 14 * (j : Int) - lineHeight) = 720 - 14 * ((j + 1 : Nat) : Int) := by
        push_cast [lineHeight]; ring
      rw [hy] at hp
      exact ih (j + 1) _ (by omega) (by simp [hcur]) p hp

/-- Claim C2 (amended): with line height 14 on pages of height 792 and
margins 72 (usable span 648, `⌊648 / 14⌋ = 46` lines per page), exporting
a body that flattens to `N ≥ 1` lines emits exactly `⌈N / 46⌉` content
pages, and no page receives more than 46 lines — a line whose placement
would cross the bottom margin starts a new page.  (For `N = 0` the source
still emits one empty page, so the unrestricted `⌈N / 46⌉` count of the
original claim fails there; see the counterexample.) -/
theorem c2_pages_formula (w : List Char → Nat → Int) (lines : List PageLine)
    (h : lines ≠ []) :
    (contentPages w lines).length = (lines.length + 45) / 46 ∧
    (∀ p ∈ contentPages w lines, p.length ≤ 46) ∧
    ((792 - 72 - 72) / 14 : Nat) = 46 := by
  have h720 : (pageHeight - margin : Int) = 720 - 14 * ((0 : Nat) : Int) := by
    norm_num [pageHeight, margin]
  refine ⟨?_, ?_, by norm_num⟩
  · show (paginateAux w lines (pageHeight - margin) []).length = _
    rw [h720, paginateAux_length w lines 0 [] (by omega)]
    have hl : 1 ≤ lines.length := List.length_pos.mpr h
    simp only [Nat.max_def]
    split <;> omega
  · intro p hp
    refine paginateAux_page_le w lines 0 [] (by omega) rfl p ?_
    rw [← h720]
    exact hp

/-- Witness for C2: a single line yields `⌈1 / 46⌉ = 1` content page. -/
theorem c2_pages_formula_witness :
    (contentPages (fun _ _ => 0) [⟨['a'], BlockType.action, false, 12⟩]).length =
      (([⟨['a'], BlockType.action, false, 12⟩] : List PageLine).length + 45) / 46 :=
  (c2_pages_formula (fun _ _ => 0) _ (by simp)).1

/-- Counterexample to C2 as stated: a document whose only block is a
single space flattens to `N = 0` page lines, for which the claimed page
count `⌈0 / 46⌉ = 0` differs from the one (empty) page the export emits. -/
theorem c2_counterexample :
    (contentPages (fun _ _ => 0)
        (formatContentForPDF [⟨BlockType.action, [' ']⟩])).length = 1 ∧
    ((formatContentForPDF [⟨BlockType.action, [' ']⟩]).length + 45) / 46 = 0 := by
  exact ⟨by decide, by decide⟩

/-- Claim C10: a document every one of whose blocks flattens to nothing
(each newline-separated line of each block is whitespace-only) still
yields exactly one content page, carrying no draw instruction. -/
theorem c10_empty_one_page (w : List Char → Nat → Int) (blocks : List Block)
    (h : ∀ b ∈ blocks, ∀ l ∈ splitOnNewline b.text, l.all isJsWhitespace = true) :
    contentPages w (formatContentForPDF blocks) = [[]] := by
  have hflat : formatContentForPDF blocks = [] := by
    unfold formatContentForPDF
    rw [List.flatten_eq_nil_iff]
    intro l hl
    rw [List.mem_map] at hl
    obtain ⟨b, hb, rfl⟩ := hl
    unfold pageLinesOfBlock
    rw [List.filterMap_eq_nil_iff]
    intro a ha
    have hall := h b hb a ha
    have hk : lineKeep a = false := by
      unfold lineKeep
      rw [List.any_eq_false]
      intro c hc
      simp [List.all_eq_true.mp hall c hc]
    simp [hk]
  rw [hflat]
  rfl

/-- Witness for C10: a one-block document holding only spaces, a newline
and a tab exports as a single empty page. -/
theorem c10_empty_one_page_witness :
    contentPages (fun _ _ => 0)
      (formatContentForPDF [⟨BlockType.action, [' ', '\n', '\t']⟩]) = [[]] :=
  c10_empty_one_page (fun _ _ => 0) _ (by decide)

/-! ## Title page contact line (C7) -/

/-- Claim C7 (amended): when the title page is requested and title or
author is non-empty, a non-empty contact string is drawn on the title
page (the first emitted page) left-aligned at `x` = the left margin, at
`y` = the bottom margin — but with font size 10, not the claimed 12. -/
theorem c7_contact_draw (w : List Char → Nat → Int) (cfg : ExportConfig)
    (blocks : List Block) (h1 : cfg.showTitlePage = true)
    (h2 : cfg.titlePage.title ≠ [] ∨ cfg.titlePage.author ≠ [])
    (h3 : cfg.titlePage.contact ≠ []) :
    ∃ page, (exportPDF w cfg blocks).head? = some page ∧
      (⟨cfg.titlePage.contact, margin, margin, 10, false⟩ : DrawInstr) ∈ page := by
  refine ⟨titlePageDraws w cfg.titlePage, ?_, ?_⟩
  · unfold exportPDF
    rw [if_pos ⟨h1, h2⟩]
    rfl
  · unfold titlePageDraws
    rw [if_pos h3]
    simp

/-- Witness for C7: a concrete export with title `"T"` and contact `"C"`. -/
theorem c7_contact_draw_witness :
    ∃ page,
      (exportPDF (fun _ _ => 0)
          ⟨true, ⟨['T'], [], ['C'], []⟩⟩ []).head? = some page ∧
      (⟨['C'], margin, margin, 10, false⟩ : DrawInstr) ∈ page :=
  c7_contact_draw (fun _ _ => 0) ⟨true, ⟨['T'], [], ['C'], []⟩⟩ [] rfl
    (Or.inl (by decide)) (by decide)

/-- Counterexample to C7 as stated: in the concrete export with title
`"T"` and contact `"C"`, the contact line is drawn at the margins with
size 10, and no draw instruction of the whole export has size 12 — the
claimed size-12 contact draw does not exist. -/
theorem c7_counterexample :
    exportPDF (fun _ _ => 0) ⟨true, ⟨['T'], [], ['C'], []⟩⟩ [] =
      [[⟨['T'], 306, 592, 24, true⟩, ⟨['C'], 72, 72, 10, false⟩], []] ∧
    ((exportPDF (fun _ _ => 0) ⟨true, ⟨['T'], [], ['C'], []⟩⟩ []).flatten.all
        (fun d => !(d.size == 12))) = true := by
  exact ⟨by decide, by decide⟩

/-! ## Helper lemmas about the buffer primitives -/

theorem set_get?_self {α : Type} (l : List α) (i : Nat) (a b : α) (h : l.get? i = some b) :
    (l.set i a).get? i = some a := by
  induction l generalizing i with
  | nil => simp at h
  | cons x xs ih =>
    cases i with
    | zero => rfl
    | succ n => simpa using ih n (by simpa using h)

theorem map_type_set_text (l : List Block) (i : Nat) (b : Block) (t : List Char)
    (h : l.get? i = some b) :
    (l.set i { b with text := t }).map Block.type = l.map Block.type := by
  induction l generalizing i with
  | nil => rfl
  | cons x xs ih =>
    cases i with
    | zero =>
      have hx : x = b := by simpa using h
      subst hx
      simp
    | succ n => simpa using ih n (by simpa using h)

theorem mem_of_mem_take {α : Type} {x : α} {l : List α} {n : Nat} (h : x ∈ l.take n) :
    x ∈ l := by
  rw [← List.take_append_drop n l]
  exact List.mem_append_left _ h

theorem mem_of_mem_drop {α : Type} {x : α} {l : List α} {n : Nat} (h : x ∈ l.drop n) :
    x ∈ l := by
  rw [← List.take_append_drop n l]
  exact List.mem_append_right _ h

theorem bufferInsertText_cursorBlock (st : EditorState) (s : List Char) :
    (bufferInsertText st s).cursorBlock = st.cursorBlock := by
  unfold bufferInsertText
  split <;> rfl

theorem autoFormatStep_paletteOpen (st : EditorState) :
    (autoFormatStep st).paletteOpen = st.paletteOpen := by
  unfold autoFormatStep
  split
  · split <;> rfl
  · rfl

/-- The auto-format step can only rewrite the type of the block at the
cursor; its text is preserved. -/
theorem autoFormatStep_text_at (st : EditorState) (b : Block)
    (hb : st.blocks.get? st.cursorBlock = some b) :
    ∃ b2, (autoFormatStep st).blocks.get? st.cursorBlock = some b2 ∧ b2.text = b.text := by
  have h1 : autoFormatStep st =
      (match autoFormatFire autoFormatPatterns b.text b.type with
        | some ty => { st with blocks := st.blocks.set st.cursorBlock { b with type := ty } }
        | none => st) := by
    unfold autoFormatStep
    rw [hb]
  rw [h1]
  cases hfire : autoFormatFire autoFormatPatterns b.text b.type with
  | some ty => exact ⟨_, set_get?_self _ _ _ _ hb, rfl⟩
  | none => exact ⟨b, hb, rfl⟩

theorem insertText_paletteOpen (st : EditorState) (s : List Char) :
    (insertTextWithAutoFormat st s).paletteOpen = st.paletteOpen := by
  have hbuf : (bufferInsertText st s).paletteOpen = st.paletteOpen := by
    unfold bufferInsertText
    split <;> rfl
  simp only [insertTextWithAutoFormat]
  split
  · rw [autoFormatStep_paletteOpen]
    exact hbuf
  · exact hbuf

/-- Inserting `s` through the auto-formatting `insertText` leaves the
block at the cursor with its text spliced at the cursor offset (the
auto-format step can only rewrite the block's type). -/
theorem insertText_text_at_cursor (st : EditorState) (s : List Char) (b : Block)
    (hb : st.blocks.get? st.cursorBlock = some b) :
    ∃ b2, (insertTextWithAutoFormat st s).blocks.get? st.cursorBlock = some b2 ∧
      b2.text = b.text.take st.cursorOffset ++ s ++ b.text.drop st.cursorOffset := by
  have hbuf : (bufferInsertText st s).blocks.get? st.cursorBlock =
      some { b with text := b.text.take st.cursorOffset ++ s ++ b.text.drop st.cursorOffset } := by
    unfold bufferInsertText
    rw [hb]
    exact set_get?_self _ _ _ _ hb
  simp only [insertTextWithAutoFormat]
  split
  · have hb2 : (bufferInsertText st s).blocks.get? (bufferInsertText st s).cursorBlock =
        some { b with text := b.text.take st.cursorOffset ++ s ++ b.text.drop st.cursorOffset } := by
      rw [bufferInsertText_cursorBlock]
      exact hbuf
    obtain ⟨b2, hget, htext⟩ := autoFormatStep_text_at (bufferInsertText st s) _ hb2
    rw [bufferInsertText_cursorBlock] at hget
    exact ⟨b2, hget, htext⟩
  · exact ⟨_, hbuf, rfl⟩

/-! ## Block transition claims (C3, C4, C5, C6) -/

/-- Claim C3 (amended): while the palette is open the editor's own key
handler is inert, and only ArrowUp / ArrowDown / Enter / Escape are
consumed by the palette's listener — every other character key is *not*
suppressed: it falls through to the buffer's default insertion, splicing
the character into the text of the block at the cursor. -/
theorem c3_palette_passthrough (st : EditorState) (c : Char)
    (hp : st.paletteOpen = true) :
    dispatchKey st (Key.char c) = some (insertTextWithAutoFormat st [c]) ∧
    ∀ b, st.blocks.get? st.cursorBlock = some b →
      ∃ b2, (insertTextWithAutoFormat st [c]).blocks.get? st.cursorBlock = some b2 ∧
        b2.text = b.text.take st.cursorOffset ++ c :: b.text.drop st.cursorOffset := by
  constructor
  · simp [dispatchKey, editorKeyDown, paletteKeyDown, defaultKeyBehavior, hp]
  · intro b hb
    simpa using insertText_text_at_cursor st [c] b hb

/-- Witness for C3: with the palette open over the one-block document
`"x"` (cursor at offset 1), pressing `b` reaches the buffer. -/
theorem c3_palette_passthrough_witness :
    dispatchKey ⟨[⟨.action, ['x']⟩], 0, 1, true, true, 0⟩ (Key.char 'b') =
      some (insertTextWithAutoFormat ⟨[⟨.action, ['x']⟩], 0, 1, true, true, 0⟩ ['b']) ∧
    ∃ b2,
      (insertTextWithAutoFormat ⟨[⟨.action, ['x']⟩], 0, 1, true, true, 0⟩ ['b']).blocks.get? 0 =
        some b2 ∧
      b2.text = (['x'] : List Char).take 1 ++ 'b' :: (['x'] : List Char).drop 1 := by
  obtain ⟨h1, h2⟩ := c3_palette_passthrough ⟨[⟨.action, ['x']⟩], 0, 1, true, true, 0⟩ 'b' rfl
  exact ⟨h1, h2 ⟨.action, ['x']⟩ rfl⟩

/-- Counterexample to C3 as stated: with the palette open, the character
key `a` is *not* suppressed — it changes the current block's text. -/
theorem c3_counterexample :
    dispatchKey ⟨[⟨.action, []⟩], 0, 0, true, true, 0⟩ (Key.char 'a') =
      some ⟨[⟨.action, ['a']⟩], 0, 1, true, true, 0⟩ ∧
    (⟨.action, ['a']⟩ : Block) ≠ ⟨.action, []⟩ := by
  exact ⟨by decide, by decide⟩

/-- Claim C4 (amended): in the Editing state, Tab inserts one new empty
Character block at the cursor and moves the cursor into it *only when the
selection is collapsed*; with a non-collapsed selection, Tab's default is
suppressed but nothing is inserted and the state is unchanged. -/
theorem c4_tab_collapsed_only (st : EditorState) (hp : st.paletteOpen = false) :
    (st.selectionCollapsed = true →
      dispatchKey st Key.tab = some
        { st with
            blocks := st.blocks.take (st.cursorBlock + 1) ++
              Block.mk .character [] :: st.blocks.drop (st.cursorBlock + 1),
            cursorBlock := st.cursorBlock + 1,
            cursorOffset := 0,
            selectionCollapsed := true }) ∧
    (st.selectionCollapsed = false → dispatchKey st Key.tab = some st) := by
  constructor <;> intro hc <;>
    simp [dispatchKey, editorKeyDown, paletteKeyDown, insertBlockAfterCursor, hp, hc]

/-- Witness for C4: Tab on a collapsed cursor inside an action block
inserts an empty character block after it. -/
theorem c4_tab_collapsed_only_witness :
    dispatchKey ⟨[⟨.action, ['h']⟩], 0, 1, true, false, 0⟩ Key.tab =
      some ⟨[⟨.action, ['h']⟩, ⟨.character, []⟩], 1, 0, true, false, 0⟩ := by
  have h := (c4_tab_collapsed_only ⟨[⟨.action, ['h']⟩], 0, 1, true, false, 0⟩ rfl).1 rfl
  rw [h]
  decide

/-- Counterexample to C4 as stated: with a non-collapsed selection, Tab
inserts nothing — the state (in particular the block sequence) is
unchanged, contradicting the claimed unconditional insertion. -/
theorem c4_counterexample :
    dispatchKey ⟨[⟨.action, ['h', 'i']⟩], 0, 1, false, false, 0⟩ Key.tab =
      some ⟨[⟨.action, ['h', 'i']⟩], 0, 1, false, false, 0⟩ ∧
    ([⟨.action, ['h', 'i']⟩] : List Block).length = 1 := by
  exact ⟨by decide, by decide⟩

/-- Claim C5 (amended): in the Editing state, Enter and Tab never insert
their character into any block's text (Enter is `preventDefault`-ed on a
collapsed selection over a block, and even its un-prevented default only
splits text); the `/` key, however, is *not* intercepted before the
buffer — it opens the palette *and* its character is inserted into the
block at the cursor (the palette's confirm/close paths delete it again). -/
theorem c5_structural_keys (st : EditorState) (hp : st.paletteOpen = false) :
    (∀ st2, dispatchKey st Key.tab = some st2 →
      ∀ b2 ∈ st2.blocks, '\t' ∈ b2.text → ∃ b ∈ st.blocks, '\t' ∈ b.text) ∧
    (∀ st2, dispatchKey st Key.enter = some st2 →
      ∀ b2 ∈ st2.blocks, '\n' ∈ b2.text → ∃ b ∈ st.blocks, '\n' ∈ b.text) ∧
    (∀ b, st.blocks.get? st.cursorBlock = some b →
      ∃ st2, dispatchKey st (Key.char '/') = some st2 ∧ st2.paletteOpen = true ∧
        ∃ b2, st2.blocks.get? st.cursorBlock = some b2 ∧
          b2.text = b.text.take st.cursorOffset ++ '/' :: b.text.drop st.cursorOffset) := by
  refine ⟨?_, ?_, ?_⟩
  · intro st2 hd b2 hb2 ht
    by_cases hc : st.selectionCollapsed = true
    · have hd2 : dispatchKey st Key.tab = some (insertBlockAfterCursor st .character) := by
        simp [dispatchKey, editorKeyDown, paletteKeyDown, hp, hc]
      rw [hd2] at hd
      obtain rfl : insertBlockAfterCursor st BlockType.character = st2 := by
        injection hd
      have hb2a : b2 ∈ st.blocks.take (st.cursorBlock + 1) ++
          Block.mk .character [] :: st.blocks.drop (st.cursorBlock + 1) := hb2
      rcases List.mem_append.mp hb2a with h | h
      · exact ⟨b2, mem_of_mem_take h, ht⟩
      · rcases List.mem_cons.mp h with h | h
        · subst h; simp at ht
        · exact ⟨b2, mem_of_mem_drop h, ht⟩
    · rw [Bool.not_eq_true] at hc
      have hd2 : dispatchKey st Key.tab = some st := by
        simp [dispatchKey, editorKeyDown, paletteKeyDown, defaultKeyBehavior, hp, hc]
      rw [hd2] at hd
      obtain rfl : st = st2 := by injection hd
      exact ⟨b2, hb2, ht⟩
  · intro st2 hd b2 hb2 ht
    by_cases hc : st.selectionCollapsed = true
    · cases hg : st.blocks.get? st.cursorBlock with
      | some b =>
        have hg2 : st.blocks[st.cursorBlock]? = some b := by
          rw [← List.get?_eq_getElem?]; exact hg
        have hd2 : dispatchKey st Key.enter = some (insertBlockAfterCursor st
            (if b.type = .character then .dialogue
             else if b.type = .sceneHeading then .action else .action)) := by
          simp [dispatchKey, editorKeyDown, paletteKeyDown, hp, hc, hg2]
        rw [hd2] at hd
        obtain rfl : insertBlockAfterCursor st
            (if b.type = .character then .dialogue
             else if b.type = .sceneHeading then .action else .action) = st2 := by
          injection hd
        have hb2a : b2 ∈ st.blocks.take (st.cursorBlock + 1) ++
            Block.mk (if b.type = .character then .dialogue
              else if b.type = .sceneHeading then .action else .action) [] ::
            st.blocks.drop (st.cursorBlock + 1) := hb2
        rcases List.mem_append.mp hb2a with h | h
        · exact ⟨b2, mem_of_mem_take h, ht⟩
        · rcases List.mem_cons.mp h with h | h
          · subst h; simp at ht
          · exact ⟨b2, mem_of_mem_drop h, ht⟩
      | none =>
        have hg2 : st.blocks[st.cursorBlock]? = none := by
          rw [← List.get?_eq_getElem?]; exact hg
        have hd2 : dispatchKey st Key.enter = some st := by
          simp [dispatchKey, editorKeyDown, paletteKeyDown, defaultKeyBehavior,
            insertBreak, hp, hc, hg2]
        rw [hd2] at hd
        obtain rfl : st = st2 := by injection hd
        exact ⟨b2, hb2, ht⟩
    · rw [Bool.not_eq_true] at hc
      have hd2 : dispatchKey st Key.enter = some (insertBreak st) := by
        simp [dispatchKey, editorKeyDown, paletteKeyDown, defaultKeyBehavior, hp, hc]
      rw [hd2] at hd
      obtain rfl : insertBreak st = st2 := by injection hd
      cases hg : st.blocks.get? st.cursorBlock with
      | some b =>
        have hib : insertBreak st =
            { st with
                blocks := st.blocks.take st.cursorBlock ++
                  { b with text := b.text.take st.cursorOffset } ::
                  { b with text := b.text.drop st.cursorOffset } ::
                  st.blocks.drop (st.cursorBlock + 1),
                cursorBlock := st.cursorBlock + 1,
                cursorOffset := 0 } := by
          unfold insertBreak
          rw [hg]
        rw [hib] at hb2
        rcases List.mem_append.mp hb2 with h | h
        · exact ⟨b2, mem_of_mem_take h, ht⟩
        · rcases List.mem_cons.mp h with h | h
          · subst h
            exact ⟨b, List.get?_mem hg, mem_of_mem_take (by simpa using ht)⟩
          · rcases List.mem_cons.mp h with h | h
            · subst h
              exact ⟨b, List.get?_mem hg, mem_of_mem_drop (by simpa using ht)⟩
            · exact ⟨b2, mem_of_mem_drop h, ht⟩
      | none =>
        have hib : insertBreak st = st := by
          unfold insertBreak
          rw [hg]
        rw [hib] at hb2
        exact ⟨b2, hb2, ht⟩
  · intro b hb
    refine ⟨insertTextWithAutoFormat { st with paletteOpen := true } ['/'], ?_, ?_, ?_⟩
    · simp [dispatchKey, editorKeyDown, paletteKeyDown, defaultKeyBehavior, hp]
    · rw [insertText_paletteOpen]
    · simpa using insertText_text_at_cursor { st with paletteOpen := true } ['/'] b hb

/-- Witness for C5: in the one-block document `""` with the palette
closed, pressing `/` opens the palette and puts `/` at the cursor. -/
theorem c5_structural_keys_witness :
    ∃ st2, dispatchKey ⟨[⟨.action, []⟩], 0, 0, true, false, 0⟩ (Key.char '/') = some st2 ∧
      st2.paletteOpen = true ∧
      ∃ b2, st2.blocks.get? 0 = some b2 ∧
        b2.text = ([] : List Char).take 0 ++ '/' :: ([] : List Char).drop 0 :=
  (c5_structural_keys ⟨[⟨.action, []⟩], 0, 0, true, false, 0⟩ rfl).2.2 ⟨.action, []⟩ rfl

/-- Counterexample to C5 as stated: pressing `/` in the Editing state
inserts the `/` character into the current block's text (the source's
`handleCommandSelect` later deletes it, as its own comment says). -/
theorem c5_counterexample :
    dispatchKey ⟨[⟨.action, []⟩], 0, 0, true, false, 0⟩ (Key.char '/') =
      some ⟨[⟨.action, ['/']⟩], 0, 1, true, true, 0⟩ ∧
    (⟨.action, ['/']⟩ : Block) ≠ ⟨.action, []⟩ := by
  exact ⟨by decide, by decide⟩

/-- Claim C6: Enter in the Editing state on a collapsed selection inserts
exactly one new empty block immediately after the block containing the
cursor — Dialogue after a Character block and Action after every other
type — and the cursor moves into the new block. -/
theorem c6_enter_insert (st : EditorState) (b : Block) (hp : st.paletteOpen = false)
    (hc : st.selectionCollapsed = true) (hb : st.blocks.get? st.cursorBlock = some b) :
    dispatchKey st Key.enter = some
      { st with
          blocks := st.blocks.take (st.cursorBlock + 1) ++
            Block.mk (if b.type = .character then .dialogue else .action) [] ::
            st.blocks.drop (st.cursorBlock + 1),
          cursorBlock := st.cursorBlock + 1,
          cursorOffset := 0,
          selectionCollapsed := true } := by
  have hb2 : st.blocks[st.cursorBlock]? = some b := by
    rw [← List.get?_eq_getElem?]; exact hb
  simp [dispatchKey, editorKeyDown, paletteKeyDown, insertBlockAfterCursor,
    hp, hc, hb2]

/-- Witness for C6: Enter on a character block `"W"` inserts an empty
dialogue block after it and moves the cursor into it. -/
theorem c6_enter_insert_witness :
    dispatchKey ⟨[⟨.character, ['W']⟩], 0, 1, true, false, 0⟩ Key.enter =
      some ⟨[⟨.character, ['W']⟩, ⟨.dialogue, []⟩], 1, 0, true, false, 0⟩ := by
  have h := c6_enter_insert ⟨[⟨.character, ['W']⟩], 0, 1, true, false, 0⟩
    ⟨.character, ['W']⟩ rfl rfl rfl
  rw [h]
  decide

/-! ## Auto-format firing condition (C8) -/

/-- Claim C8: a multi-character insertion (length > 1, e.g. a paste)
never triggers auto-formatting — it leaves every block's type unchanged,
both through the overridden `insertText` and through the paste handler
`insertData`. -/
theorem c8_multichar_no_reformat (st : EditorState) (s : List Char)
    (h : 1 < s.length) :
    (insertTextWithAutoFormat st s).blocks.map Block.type = st.blocks.map Block.type ∧
    (editorInsertData st s).blocks.map Block.type = st.blocks.map Block.type := by
  have hbuf : (bufferInsertText st s).blocks.map Block.type = st.blocks.map Block.type := by
    unfold bufferInsertText
    cases hg : st.blocks.get? st.cursorBlock with
    | none => rfl
    | some b =>
      simpa using map_type_set_text st.blocks st.cursorBlock b
        (b.text.take st.cursorOffset ++ s ++ b.text.drop st.cursorOffset) hg
  constructor
  · have hcond : ¬(s ≠ [] ∧ s.length = 1 ∧ s ≠ ['\n'] ∧ s ≠ ['\t'] ∧
        (bufferInsertText st s).selectionCollapsed = true) := by
      intro hcontra
      omega
    simp only [insertTextWithAutoFormat]
    rw [if_neg hcond]
    exact hbuf
  · have hs : s ≠ [] := by
      intro he
      rw [he] at h
      simp at h
    unfold editorInsertData
    rw [if_pos hs]
    exact hbuf

/-- Witness for C8: pasting `"ab"` into an action block leaves the block
typed as action. -/
theorem c8_multichar_no_reformat_witness :
    (insertTextWithAutoFormat ⟨[⟨.action, []⟩], 0, 0, true, false, 0⟩ ['a', 'b']).blocks.map
        Block.type = ([⟨.action, []⟩] : List Block).map Block.type ∧
    (editorInsertData ⟨[⟨.action, []⟩], 0, 0, true, false, 0⟩ ['a', 'b']).blocks.map
        Block.type = ([⟨.action, []⟩] : List Block).map Block.type :=
  c8_multichar_no_reformat ⟨[⟨.action, []⟩], 0, 0, true, false, 0⟩ ['a', 'b'] (by decide)

/-! ## Palette selection movement (C9) -/

/-- Claim C9: over the 16-command catalog, selection movement wraps
modulo 16 and never leaves `[0, 16)`: one backward move from 0 yields 15,
16 forward moves are the identity, any sequence of arrow moves keeps the
index in range, and the arrow keys while the palette is open perform
exactly these updates. -/
theorem c9_move_selection :
    commands.length = 16 ∧
    moveSelectionUp 0 = commands.length - 1 ∧
    (∀ i, i < commands.length → moveSelectionDown^[commands.length] i = i) ∧
    (∀ (ms : List Bool) (i : Nat), i < commands.length →
      ms.foldl (fun j m => if m then moveSelectionDown j else moveSelectionUp j) i <
        commands.length) ∧
    (∀ st : EditorState, st.paletteOpen = true →
      dispatchKey st Key.arrowUp =
        some { st with selectedIndex := moveSelectionUp st.selectedIndex } ∧
      dispatchKey st Key.arrowDown =
        some { st with selectedIndex := moveSelectionDown st.selectedIndex }) := by
  refine ⟨by decide, by decide, by decide, ?_, ?_⟩
  · intro ms
    induction ms with
    | nil =>
      intro i h
      simpa using h
    | cons m ms ih =>
      intro i h
      simp only [List.foldl_cons]
      apply ih
      cases m
      · exact Nat.mod_lt _ (by decide)
      · exact Nat.mod_lt _ (by decide)
  · intro st hst
    constructor <;> simp [dispatchKey, editorKeyDown, paletteKeyDown, hst]

/-- Witness for C9: sixteen forward moves fix index 3, a concrete move
sequence stays in range, and ArrowDown while open advances the index. -/
theorem c9_move_selection_witness :
    moveSelectionDown^[commands.length] 3 = 3 ∧
    ([true, false, true] : List Bool).foldl
        (fun j m => if m then moveSelectionDown j else moveSelectionUp j) 0 <
      commands.length ∧
    dispatchKey ⟨[⟨.action, []⟩], 0, 0, true, true, 5⟩ Key.arrowDown =
      some { (⟨[⟨.action, []⟩], 0, 0, true, true, 5⟩ : EditorState) with
        selectedIndex := moveSelectionDown 5 } :=
  ⟨c9_move_selection.2.2.1 3 (by decide),
   c9_move_selection.2.2.2.1 [true, false, true] 0 (by decide),
   (c9_move_selection.2.2.2.2 ⟨[⟨.action, []⟩], 0, 0, true, true, 5⟩ rfl).2⟩

end ScreenWrite
